import Mathlib

/-!
Verification of the `agent-contracts` core against its specification.

This file gives a shallow embedding of the core Python modules
(`agent_contracts/core/contract.py`, `monitor.py`, `enforcement.py`,
`planning.py`, `wrapper.py`) and proves or refutes the frozen claims
about them.

Modelling conventions:
- Python `int` is modelled as `ℤ` (or `ℕ` where the value is a count that
  is always non-negative in the source), Python `float` as `ℚ` with exact
  rational arithmetic, and Python `int(x)` (truncation toward zero) as
  `pyInt`.
- A Python method that can `raise` is modelled as a function returning
  `Except` (or a dedicated result type carrying the mutated-so-far state
  where partial mutation before the raise is observable).
- A raised exception leaves the object unchanged whenever the source
  raises before mutating, which is the case for every guard modelled
  here.
-/

namespace AgentContracts

/-- Truncation toward zero of an exact rational, the behaviour of Python
`int(x)` applied to a real value. -/
def pyInt (q : ℚ) : ℤ := q.num.tdiv q.den

/-! ### Contract lifecycle (`contract.py`, class `ContractState` / `Contract`) -/

/-- Contract lifecycle states, from `ContractState` in `contract.py`. -/
inductive ContractState where
  | drafted
  | active
  | fulfilled
  | violated
  | expired
  | terminated
deriving DecidableEq, Repr

/-- The five lifecycle methods of `Contract`. -/
inductive LMethod where
  | activate
  | fulfill
  | violate
  | expire
  | terminate
deriving DecidableEq, Repr

namespace Contract

/-- `Contract.activate`: DRAFTED → ACTIVE, raises otherwise. -/
def activate : ContractState → Except String ContractState
  | .drafted => .ok .active
  | _ => .error "Cannot activate contract in this state"

/-- `Contract.fulfill`: ACTIVE → FULFILLED, raises otherwise. -/
def fulfill : ContractState → Except String ContractState
  | .active => .ok .fulfilled
  | _ => .error "Cannot fulfill contract in this state"

/-- `Contract.violate`: ACTIVE → VIOLATED, raises otherwise. -/
def violate : ContractState → Except String ContractState
  | .active => .ok .violated
  | _ => .error "Cannot violate contract in this state"

/-- `Contract.expire`: ACTIVE → EXPIRED, raises otherwise. -/
def expire : ContractState → Except String ContractState
  | .active => .ok .expired
  | _ => .error "Cannot expire contract in this state"

/-- `Contract.terminate`: DRAFTED or ACTIVE → TERMINATED, raises otherwise. -/
def terminate : ContractState → Except String ContractState
  | .drafted => .ok .terminated
  | .active => .ok .terminated
  | _ => .error "Cannot terminate contract in this state"

/-- Dispatch one lifecycle method call. -/
def step : LMethod → ContractState → Except String ContractState
  | .activate, s => activate s
  | .fulfill, s => fulfill s
  | .violate, s => violate s
  | .expire, s => expire s
  | .terminate, s => terminate s

/-- The state after a method call, with a failed call leaving the state
unchanged (the source raises before any mutation). -/
def runStep (m : LMethod) (s : ContractState) : ContractState :=
  match step m s with
  | .ok s2 => s2
  | .error _ => s

/-- `Contract.is_complete`: the terminal states. -/
def isTerminal (s : ContractState) : Bool :=
  match s with
  | .fulfilled | .violated | .expired | .terminated => true
  | _ => false

end Contract

/-! ### Resource constraints (`contract.py`, class `ResourceConstraints`) -/

/-- `ResourceConstraints`: optional numeric ceilings, from `contract.py`.
Integer fields are `Option ℤ`, float fields `Option ℚ`, mirroring the
declared Python types; `none` means unlimited. -/
structure ResourceConstraints where
  tokens : Option ℤ := none
  reasoning_tokens : Option ℤ := none
  text_tokens : Option ℤ := none
  reasoning_effort : Option String := none
  api_calls : Option ℤ := none
  web_searches : Option ℤ := none
  tool_invocations : Option ℤ := none
  memory_mb : Option ℚ := none
  compute_seconds : Option ℚ := none
  cost_usd : Option ℚ := none
deriving DecidableEq, Repr

/-- The distinct `ValueError`s that `ResourceConstraints.__post_init__`
can raise, in source order of the checks. -/
inductive VError where
  | negativeField (name : String)
  | mixedModes
  | invalidEffort
  | effortIncompatible (effort : String)
deriving DecidableEq, Repr

namespace ResourceConstraints

/-- One step of the non-negativity loop of `__post_init__` for an integer
field. -/
def checkNonnegI (name : String) (v : Option ℤ) : Except VError Unit :=
  match v with
  | some x => if x < 0 then .error (.negativeField name) else .ok ()
  | none => .ok ()

/-- One step of the non-negativity loop of `__post_init__` for a float
field. -/
def checkNonnegQ (name : String) (v : Option ℚ) : Except VError Unit :=
  match v with
  | some x => if x < 0 then .error (.negativeField name) else .ok ()
  | none => .ok ()

/-- Python truthiness of an optional integer: `None` and `0` are falsy. -/
def truthyInt (v : Option ℤ) : Bool :=
  match v with
  | some x => x ≠ 0
  | none => false

/-- Python truthiness of an optional string: `None` and `""` are falsy. -/
def truthyStr (v : Option String) : Bool :=
  match v with
  | some s => s ≠ ""
  | none => false

/-- `ResourceConstraints._validate_reasoning_compatibility`. -/
def validateReasoningCompatibility (c : ResourceConstraints) : Except VError Unit :=
  match c.reasoning_effort, c.reasoning_tokens with
  | some "high", some budget =>
      if budget < 2000 then .error (.effortIncompatible "high") else .ok ()
  | some "medium", some budget =>
      if budget < 500 then .error (.effortIncompatible "medium") else .ok ()
  | _, _ => .ok ()

/-- The token-mode exclusivity check of `__post_init__`: lumpsum
(`tokens`) and fine-grained (`reasoning_tokens`/`text_tokens`) budgets
cannot be mixed. -/
def checkTokenModes (c : ResourceConstraints) : Except VError Unit :=
  if c.tokens.isSome ∧ (c.reasoning_tokens.isSome ∨ c.text_tokens.isSome) then
    .error .mixedModes
  else .ok ()

/-- The `reasoning_effort` value check of `__post_init__`: when present
it must be one of low/medium/high. -/
def checkEffortValue (c : ResourceConstraints) : Except VError Unit :=
  match c.reasoning_effort with
  | some e =>
      if e = "low" ∨ e = "medium" ∨ e = "high" then .ok () else .error .invalidEffort
  | none => .ok ()

/-- The guarded compatibility check of `__post_init__`: the source reads
`if self.reasoning_effort and self.reasoning_tokens:` — Python
truthiness, so the check is skipped both when `reasoning_tokens` is
`None` and when it is `0`. -/
def checkEffortBudget (c : ResourceConstraints) : Except VError Unit :=
  if truthyStr c.reasoning_effort ∧ truthyInt c.reasoning_tokens then
    validateReasoningCompatibility c
  else .ok ()

/-- `ResourceConstraints.__post_init__`: validation run at construction.
The non-negativity loop walks the fields in declaration order (skipping
the string field), then the token-mode exclusivity check, then the
`reasoning_effort` value check, then the guarded compatibility check. -/
def validate (c : ResourceConstraints) : Except VError Unit := do
  checkNonnegI "tokens" c.tokens
  checkNonnegI "reasoning_tokens" c.reasoning_tokens
  checkNonnegI "text_tokens" c.text_tokens
  checkNonnegI "api_calls" c.api_calls
  checkNonnegI "web_searches" c.web_searches
  checkNonnegI "tool_invocations" c.tool_invocations
  checkNonnegQ "memory_mb" c.memory_mb
  checkNonnegQ "compute_seconds" c.compute_seconds
  checkNonnegQ "cost_usd" c.cost_usd
  checkTokenModes c
  checkEffortValue c
  checkEffortBudget c

end ResourceConstraints

/-! ### Resource usage accounting (`monitor.py`, class `ResourceUsage`) -/

/-- `ResourceUsage`: running totals of consumption, from `monitor.py`.
Integer counters are `ℤ` (Python `int`), float counters `ℚ`. -/
structure ResourceUsage where
  tokens : ℤ := 0
  reasoning_tokens : ℤ := 0
  text_tokens : ℤ := 0
  api_calls : ℤ := 0
  web_searches : ℤ := 0
  tool_invocations : ℤ := 0
  memory_mb : ℚ := 0
  compute_seconds : ℚ := 0
  cost_usd : ℚ := 0
deriving DecidableEq, Repr

/-- The accumulation methods of `ResourceUsage`, with their arguments. -/
inductive UsageOp where
  | addTokens (count reasoning text : ℤ)
  | addApiCall (cost : ℚ) (tokens : ℤ)
  | addWebSearch
  | addToolInvocation
  | updateMemory (memory_mb : ℚ)
  | addComputeTime (seconds : ℚ)
  | addCost (cost_usd : ℚ)
deriving DecidableEq, Repr

namespace ResourceUsage

/-- `ResourceUsage.add_tokens`: with a reasoning/text split given, both
accumulate and their sum adds to the total; otherwise `count` adds to the
total. Negative arguments raise, leaving the record unchanged. -/
def add_tokens (u : ResourceUsage) (count reasoning text : ℤ) : ResourceUsage :=
  if count < 0 ∨ reasoning < 0 ∨ text < 0 then u
  else if reasoning > 0 ∨ text > 0 then
    { u with
      reasoning_tokens := u.reasoning_tokens + reasoning
      text_tokens := u.text_tokens + text
      tokens := u.tokens + reasoning + text }
  else
    { u with tokens := u.tokens + count }

/-- `ResourceUsage.add_api_call`: increments the call count and adds cost
and tokens in one step. Negative arguments raise, leaving the record
unchanged. -/
def add_api_call (u : ResourceUsage) (cost : ℚ) (tokens : ℤ) : ResourceUsage :=
  if cost < 0 ∨ tokens < 0 then u
  else
    { u with
      api_calls := u.api_calls + 1
      cost_usd := u.cost_usd + cost
      tokens := u.tokens + tokens }

/-- `ResourceUsage.add_web_search`. -/
def add_web_search (u : ResourceUsage) : ResourceUsage :=
  { u with web_searches := u.web_searches + 1 }

/-- `ResourceUsage.add_tool_invocation`. -/
def add_tool_invocation (u : ResourceUsage) : ResourceUsage :=
  { u with tool_invocations := u.tool_invocations + 1 }

/-- `ResourceUsage.update_memory`: keeps the maximum seen; a negative
argument raises, leaving the record unchanged. -/
def update_memory (u : ResourceUsage) (m : ℚ) : ResourceUsage :=
  if m < 0 then u else { u with memory_mb := max u.memory_mb m }

/-- `ResourceUsage.add_compute_time`; a negative argument raises. -/
def add_compute_time (u : ResourceUsage) (s : ℚ) : ResourceUsage :=
  if s < 0 then u else { u with compute_seconds := u.compute_seconds + s }

/-- `ResourceUsage.add_cost`; a negative argument raises. -/
def add_cost (u : ResourceUsage) (c : ℚ) : ResourceUsage :=
  if c < 0 then u else { u with cost_usd := u.cost_usd + c }

/-- Apply one accumulation method. -/
def applyOp (u : ResourceUsage) : UsageOp → ResourceUsage
  | .addTokens count reasoning text => u.add_tokens count reasoning text
  | .addApiCall cost tokens => u.add_api_call cost tokens
  | .addWebSearch => u.add_web_search
  | .addToolInvocation => u.add_tool_invocation
  | .updateMemory m => u.update_memory m
  | .addComputeTime s => u.add_compute_time s
  | .addCost c => u.add_cost c

/-- Apply a sequence of accumulation methods, left to right. -/
def applyOps (u : ResourceUsage) (ops : List UsageOp) : ResourceUsage :=
  ops.foldl applyOp u

/-- Run a sequence of accumulation methods from the freshly constructed
`ResourceUsage()` (all counters zero). -/
def run (ops : List UsageOp) : ResourceUsage := applyOps {} ops

end ResourceUsage

/-! ### Constraint checking (`monitor.py`, class `ResourceMonitor`) -/

/-- `ViolationInfo`: resource name, limit and actual value (the source
stores both as floats). -/
structure ViolationInfo where
  resource : String
  limit : ℚ
  actual : ℚ
deriving DecidableEq, Repr

namespace ResourceMonitor

/-- One integer-limit check of `ResourceMonitor.check_constraints`:
a violation is appended when the limit is set and usage strictly
exceeds it. -/
def checkI (name : String) (limit : Option ℤ) (actual : ℤ) : List ViolationInfo :=
  match limit with
  | some l => if actual > l then [⟨name, (l : ℚ), (actual : ℚ)⟩] else []
  | none => []

/-- One float-limit check of `ResourceMonitor.check_constraints`. -/
def checkQ (name : String) (limit : Option ℚ) (actual : ℚ) : List ViolationInfo :=
  match limit with
  | some l => if actual > l then [⟨name, l, actual⟩] else []
  | none => []

/-- `ResourceMonitor.check_constraints`: the nine independent checks, in
source order; each fires only when its own limit is present. -/
def check_constraints (c : ResourceConstraints) (u : ResourceUsage) :
    List ViolationInfo :=
  checkI "tokens" c.tokens u.tokens ++
  checkI "reasoning_tokens" c.reasoning_tokens u.reasoning_tokens ++
  checkI "text_tokens" c.text_tokens u.text_tokens ++
  checkI "api_calls" c.api_calls u.api_calls ++
  checkI "web_searches" c.web_searches u.web_searches ++
  checkI "tool_invocations" c.tool_invocations u.tool_invocations ++
  checkQ "memory_mb" c.memory_mb u.memory_mb ++
  checkQ "compute_seconds" c.compute_seconds u.compute_seconds ++
  checkQ "cost_usd" c.cost_usd u.cost_usd

end ResourceMonitor

/-! ### Enforcement (`enforcement.py`, class `ContractEnforcer`) -/

/-- `EnforcementEvent`, reduced to the fields the claims mention: the
event type tag and the human-readable message (payload and timestamp
omitted). -/
structure EnforcementEvent where
  event_type : String
  message : String
deriving DecidableEq, Repr

/-- The mutable state of a `ContractEnforcer` together with the state of
the contract it owns (in the source the enforcer mutates the shared
`Contract` object; here the contract's state lives inside this record).
`events` is the stream of events emitted to the callbacks, in emission
order. -/
structure EnforcerState where
  contractState : ContractState
  strictMode : Bool
  enforcementActive : Bool := false
  recordedViolations : List ViolationInfo := []
  events : List EnforcementEvent := []
deriving DecidableEq, Repr

/-- Outcome of an enforcer method that can raise part-way through: `ok`
carries the return value, `raised` carries the state as mutated before
the raise together with the error message. -/
inductive EnfOutcome where
  | ok (s : EnforcerState) (isViolated : Bool) (violations : List ViolationInfo)
  | raised (s : EnforcerState) (msg : String)
deriving DecidableEq, Repr

namespace EnfOutcome

/-- Whether the call raised instead of returning. -/
def isRaised : EnfOutcome → Bool
  | .ok _ _ _ => false
  | .raised _ _ => true

/-- The enforcer state after the call (mutations before a raise persist). -/
def stateOf : EnfOutcome → EnforcerState
  | .ok s _ _ => s
  | .raised s _ => s

/-- The returned violation list (empty when the call raised). -/
def violationsOf : EnfOutcome → List ViolationInfo
  | .ok _ _ v => v
  | .raised _ _ => []

/-- The returned `is_violated` flag (false when the call raised). -/
def flagOf : EnfOutcome → Bool
  | .ok _ b _ => b
  | .raised _ _ => false

end EnfOutcome

namespace ContractEnforcer

/-- `ContractEnforcer._emit_event`: one-to-many fan-out with per-callback
failure isolation; modelled as appending to the emitted-event stream. -/
def emit (e : EnforcementEvent) (s : EnforcerState) : EnforcerState :=
  { s with events := s.events ++ [e] }

/-- `ContractEnforcer.start`: fails if already active, otherwise
activates the contract and emits `contract_started`. -/
def start (s : EnforcerState) : Except String EnforcerState :=
  if s.enforcementActive then .error "Enforcement is already active"
  else
    match Contract.activate s.contractState with
    | .error e => .error e
    | .ok st =>
        .ok (emit ⟨"contract_started", "enforcement started"⟩
          { s with contractState := st, enforcementActive := true })

/-- `ContractEnforcer.stop`: a no-op when not active, otherwise clears
the active flag and emits `contract_stopped`. -/
def stop (s : EnforcerState) : EnforcerState :=
  if s.enforcementActive then
    emit ⟨"contract_stopped", "enforcement stopped"⟩
      { s with enforcementActive := false }
  else s

/-- `ContractEnforcer._handle_violation` (strict mode): marks the
contract violated, stops enforcement, emits `contract_terminated`.
`Contract.violate` raises when the contract is not ACTIVE; the raise
happens before any mutation of this method. -/
def handle_violation (s : EnforcerState) : EnforcerState × Option String :=
  match Contract.violate s.contractState with
  | .error e => (s, some e)
  | .ok st =>
      let s1 := stop { s with contractState := st }
      (emit ⟨"contract_terminated", "Contract terminated due to violations"⟩ s1, none)

/-- `ContractEnforcer.check_constraints`: delegates to the monitor; on a
non-empty violation list it records every violation, emits
`constraint_violated`, and — in strict mode — runs the violation
handler; finally returns `(is_violated, violations)` unless the handler
raised. -/
def check_constraints (c : ResourceConstraints) (u : ResourceUsage)
    (s : EnforcerState) : EnfOutcome :=
  let vios := ResourceMonitor.check_constraints c u
  if vios.isEmpty then .ok s false vios
  else
    let s1 := { s with recordedViolations := s.recordedViolations ++ vios }
    let s2 := emit ⟨"constraint_violated", "Constraint violation: resource(s) exceeded"⟩ s1
    if s.strictMode then
      match handle_violation s2 with
      | (s3, none) => .ok s3 true vios
      | (s3, some msg) => .raised s3 msg
    else .ok s2 true vios

/-- `ContractEnforcer.is_active`: true only when the internal started
flag is set and the contract state is ACTIVE. -/
def is_active (s : EnforcerState) : Bool :=
  s.enforcementActive && decide (s.contractState = ContractState.active)

end ContractEnforcer

/-! ### Strategic planning (`planning.py`) -/

/-- Modelled from the spec: `ContractMode` is referenced by `planning.py`
(`from agent_contracts.core.contract import Contract, ContractMode`) but
its definition is not under src/; the spec fixes its three values
URGENT, BALANCED, ECONOMICAL. -/
inductive ContractMode where
  | urgent
  | balanced
  | economical
deriving DecidableEq, Repr

/-- `TaskPriority` from `planning.py`. -/
inductive TaskPriority where
  | critical
  | high
  | medium
  | low
deriving DecidableEq, Repr

/-- Sorting in `planning.py` keys on the enum's `.value` string, so the
effective order is the alphabetical order of the strings
"critical" < "high" < "low" < "medium". -/
def TaskPriority.valueRank : TaskPriority → ℕ
  | .critical => 0
  | .high => 1
  | .low => 2
  | .medium => 3

/-- `Task` from `planning.py` (token estimates are counts, hence `ℕ`). -/
structure Task where
  id : String
  name : String := ""
  estimated_tokens : ℕ := 0
  estimated_time : ℚ := 0
  estimated_quality : ℚ := 8/10
  priority : TaskPriority := .medium
  required : Bool := false
deriving DecidableEq, Repr

/-- `ResourceAllocation` from `planning.py`. -/
structure ResourceAllocation where
  task_id : String
  allocated_tokens : ℤ
  allocated_time : ℚ
  expected_quality : ℚ
deriving DecidableEq, Repr

/-- A minimal `Contract` record carrying the fields the planner reads.
The lifecycle state machine on `ContractState` above models the
lifecycle methods; `mode` is the strategic mode (see `ContractMode`). -/
structure Contract where
  id : String := ""
  name : String := ""
  resources : ResourceConstraints := {}
  mode : ContractMode := .balanced
  state : ContractState := .drafted
deriving DecidableEq, Repr

/-- Stable insertion of `x` after every already-placed element that is
`le x`: together with `stableSortBy` this reproduces Python's stable
`sorted`. -/
def insertStable {α : Type} (le : α → α → Bool) (x : α) : List α → List α
  | [] => [x]
  | y :: ys => if le y x then y :: insertStable le x ys else x :: y :: ys

/-- Stable sort by a boolean total preorder, the behaviour of Python's
`sorted(key=...)`. -/
def stableSortBy {α : Type} (le : α → α → Bool) (l : List α) : List α :=
  l.foldl (fun acc x => insertStable le x acc) []

namespace Planner

/-- The sort key used by `_allocate_urgent` and `_allocate_economical`:
`(not t.required, t.priority.value)` lexicographically, encoded as one
natural number. -/
def sortKey (t : Task) : ℕ :=
  (if t.required then 0 else 4) + t.priority.valueRank

/-- Tasks in the order the allocators process them: Python
`sorted(tasks, key=lambda t: (not t.required, t.priority.value))`. -/
def sortTasks (tasks : List Task) : List Task :=
  stableSortBy (fun a b => decide (sortKey a ≤ sortKey b)) tasks

/-- Loop body of `_allocate_urgent`. -/
def urgentGo : List Task → List ResourceAllocation
  | [] => []
  | t :: ts =>
      let allocated : ℤ :=
        if t.required ∨ t.priority = .critical ∨ t.priority = .high then
          pyInt ((t.estimated_tokens : ℚ) * (12/10))
        else (t.estimated_tokens : ℤ)
      { task_id := t.id
        allocated_tokens := allocated
        allocated_time := t.estimated_time
        expected_quality := max (85/100) t.estimated_quality } :: urgentGo ts

/-- `_allocate_urgent` from `planning.py`. -/
def allocate_urgent (tasks : List Task) (remaining_tokens : ℤ)
    (total_estimated : ℕ) : List ResourceAllocation :=
  urgentGo (sortTasks tasks)

/-- The `allocated` amount computed for one task inside
`_allocate_economical`: required tasks get 70% of their estimate,
optional tasks 60% capped by the remaining usable budget, and zero once
the usable budget is exhausted. -/
def econAllocated (usable_budget : ℤ) (t : Task) (sofar : ℤ) : ℤ :=
  if t.required then
    pyInt ((t.estimated_tokens : ℚ) * (7/10))
  else if sofar < usable_budget then
    min (pyInt ((t.estimated_tokens : ℚ) * (6/10))) (usable_budget - sofar)
  else 0

/-- Loop body of `_allocate_economical`: `sofar` is `allocated_so_far`. -/
def econGo (usable_budget : ℤ) : List Task → ℤ → List ResourceAllocation
  | [], _ => []
  | t :: ts, sofar =>
      { task_id := t.id
        allocated_tokens := econAllocated usable_budget t sofar
        allocated_time := t.estimated_time * (13/10)
        expected_quality := t.estimated_quality * (95/100) }
        :: econGo usable_budget ts (sofar + econAllocated usable_budget t sofar)

/-- `_allocate_economical` from `planning.py`: reserves a 20% buffer and
walks the sorted tasks accumulating `allocated_so_far`. -/
def allocate_economical (tasks : List Task) (remaining_tokens : ℤ)
    (total_estimated : ℕ) : List ResourceAllocation :=
  econGo (pyInt ((remaining_tokens : ℚ) * (8/10))) (sortTasks tasks) 0

/-- `_allocate_balanced` from `planning.py`. When the scaled branch is
taken the source divides by `total_estimated`; exact rational division
models it (the claims do not touch the `total_estimated = 0` corner of
that branch, which in Python would be a `ZeroDivisionError`). -/
def allocate_balanced (tasks : List Task) (remaining_tokens : ℤ)
    (total_estimated : ℕ) : List ResourceAllocation :=
  let usable_budget := pyInt ((remaining_tokens : ℚ) * (9/10))
  if (total_estimated : ℤ) ≤ usable_budget then
    tasks.map fun t =>
      { task_id := t.id
        allocated_tokens := (t.estimated_tokens : ℤ)
        allocated_time := t.estimated_time
        expected_quality := t.estimated_quality }
  else
    let scale_factor : ℚ := (usable_budget : ℚ) / (total_estimated : ℚ)
    tasks.map fun t =>
      let allocated := pyInt ((t.estimated_tokens : ℚ) * scale_factor)
      { task_id := t.id
        allocated_tokens :=
          if t.required then
            max allocated (pyInt ((t.estimated_tokens : ℚ) * (8/10)))
          else allocated
        allocated_time := t.estimated_time
        expected_quality := t.estimated_quality * scale_factor }

/-- `plan_resource_allocation` from `planning.py`: with no token limit,
allocate the estimates as-is; otherwise compute the remaining budget and
dispatch on the contract's mode. `usage_tokens` is
`current_usage.tokens if current_usage else 0`. -/
def plan_resource_allocation (tasks : List Task) (contract : Contract)
    (usage_tokens : ℤ) : List ResourceAllocation :=
  match contract.resources.tokens with
  | none =>
      tasks.map fun t =>
        { task_id := t.id
          allocated_tokens := (t.estimated_tokens : ℤ)
          allocated_time := t.estimated_time
          expected_quality := t.estimated_quality }
  | some total_budget =>
      let remaining_tokens := total_budget - usage_tokens
      let total_estimated := (tasks.map Task.estimated_tokens).sum
      match contract.mode with
      | .urgent => allocate_urgent tasks remaining_tokens total_estimated
      | .economical => allocate_economical tasks remaining_tokens total_estimated
      | .balanced => allocate_balanced tasks remaining_tokens total_estimated

end Planner

/-! ### Execution harness (`wrapper.py`, class `ContractAgent`) -/

/-- `ExecutionResult`, reduced to the fields the claims mention
(`output`, `success`, `violations`); the wrapped agent may return
Python `None`, hence `Option Output`. -/
structure ExecutionResult (Output : Type) where
  output : Option Output
  success : Bool
  violations : List String
deriving DecidableEq, Repr

namespace ContractAgent

/-- `ContractAgent.execute`. The wrapped operation is modelled as
`Input → Except String (Option Output)`: `.error e` is the operation
raising with text `e`, `.ok none` is the operation returning `None`.
The per-execute `_events` list (fed by the enforcement callback) is
modelled by clearing the emitted-event stream at entry. Contracts
without temporal constraints are modelled, so
`check_temporal_constraints()` finds no deadline and no max duration and
returns `False` (`TemporalMonitor` itself is not under src/). The
pre-try `enforcer.start()` call propagates its error to the caller;
every exception inside the try block — the operation's own, or the
`ValueError` a strict re-check raises on an already-violated contract —
is caught and converted into a failed result, and the contract state is
assigned VIOLATED directly (no lifecycle guard). -/
def execute {Input Output : Type}
    (c : ResourceConstraints) (op : Input → Except String (Option Output))
    (s0 : EnforcerState) (u : ResourceUsage) (input : Input) :
    Except String (EnforcerState × ExecutionResult Output) :=
  let s1 : EnforcerState := { s0 with events := [] }
  let startRes : Except String EnforcerState :=
    if s1.enforcementActive then .ok s1 else ContractEnforcer.start s1
  match startRes with
  | .error e => .error e
  | .ok s2 =>
    match op input with
    | .error e =>
        .ok ({ s2 with
                contractState := .violated
                events := s2.events ++ [⟨"error", e⟩] },
             { output := none, success := false, violations := [e] })
    | .ok output =>
        match ContractEnforcer.check_constraints c u s2 with
        | .raised s3 msg =>
            .ok ({ s3 with
                    contractState := .violated
                    events := s3.events ++ [⟨"error", msg⟩] },
                 { output := none, success := false, violations := [msg] })
        | .ok s3 isViolated _vios =>
            let success := output.isSome && !isViolated
            let s4 :=
              if isViolated then { s3 with contractState := .violated }
              else if !success then
                { s3 with
                  contractState := .violated
                  events := s3.events ++ [⟨"incomplete", "Success criteria not met"⟩] }
              else s3
            let violations :=
              (s4.events.filter fun e =>
                e.event_type == "violation" || e.event_type == "constraint_violated").map
                EnforcementEvent.message
            .ok (s4, { output := output, success := success, violations := violations })

end ContractAgent

/-! ### Verification-layer definitions used by the theorem statements -/

namespace ResourceUsage

/-- Pointwise "no counter decreased" comparison of two usage records. -/
def usageLe (u v : ResourceUsage) : Prop :=
  u.tokens ≤ v.tokens ∧ u.reasoning_tokens ≤ v.reasoning_tokens ∧
  u.text_tokens ≤ v.text_tokens ∧ u.api_calls ≤ v.api_calls ∧
  u.web_searches ≤ v.web_searches ∧ u.tool_invocations ≤ v.tool_invocations ∧
  u.memory_mb ≤ v.memory_mb ∧ u.compute_seconds ≤ v.compute_seconds ∧
  u.cost_usd ≤ v.cost_usd

instance (u v : ResourceUsage) : Decidable (usageLe u v) := by
  unfold usageLe; infer_instance

end ResourceUsage

namespace UsageOp

/-- An accumulation call that cannot put the total out of sync with the
reasoning/text split: an `add_tokens` call that reports a split (or adds
nothing through the lumpsum branch), or an `add_api_call` that adds no
tokens. Every other method never touches the token counters. -/
def splitConsistent : UsageOp → Prop
  | .addTokens count reasoning text => 0 < reasoning ∨ 0 < text ∨ count ≤ 0
  | .addApiCall _ tokens => tokens ≤ 0
  | _ => True

instance (op : UsageOp) : Decidable (splitConsistent op) := by
  unfold splitConsistent; cases op <;> infer_instance

/-- The values successfully passed to `update_memory` in a call sequence
(a negative argument raises and is not recorded). -/
def memArgs : List UsageOp → List ℚ
  | [] => []
  | .updateMemory m :: ops => if 0 ≤ m then m :: memArgs ops else memArgs ops
  | _ :: ops => memArgs ops

end UsageOp

/-! ## Theorems -/

/-- C1: the lifecycle methods obey the state machine: `activate()`
succeeds exactly from DRAFTED (moving to ACTIVE); `fulfill()`,
`violate()`, `expire()` succeed exactly from ACTIVE (moving to
FULFILLED, VIOLATED, EXPIRED); `terminate()` succeeds exactly from
DRAFTED or ACTIVE (moving to TERMINATED); every other call errors and
leaves the state unchanged, so every terminal state is sticky under all
five methods. -/
theorem contract_lifecycle_state_machine (m : LMethod) (s : ContractState) :
    ((Contract.step .activate s).isOk = true ↔ s = .drafted) ∧
    (Contract.runStep .activate s = if s = .drafted then .active else s) ∧
    ((Contract.step .fulfill s).isOk = true ↔ s = .active) ∧
    (Contract.runStep .fulfill s = if s = .active then .fulfilled else s) ∧
    ((Contract.step .violate s).isOk = true ↔ s = .active) ∧
    (Contract.runStep .violate s = if s = .active then .violated else s) ∧
    ((Contract.step .expire s).isOk = true ↔ s = .active) ∧
    (Contract.runStep .expire s = if s = .active then .expired else s) ∧
    ((Contract.step .terminate s).isOk = true ↔ (s = .drafted ∨ s = .active)) ∧
    (Contract.runStep .terminate s =
      if s = .drafted ∨ s = .active then .terminated else s) ∧
    (Contract.isTerminal s = true →
      (Contract.step m s).isOk = false ∧ Contract.runStep m s = s) := by
  cases m <;> cases s <;> decide

/-- Witness for C1 at a concrete terminal state: `fulfill()` on a
VIOLATED contract fails and leaves the state VIOLATED. -/
theorem contract_lifecycle_state_machine_witness :
    (Contract.step .fulfill .violated).isOk = false ∧
    Contract.runStep .fulfill .violated = .violated :=
  (contract_lifecycle_state_machine .fulfill .violated).2.2.2.2.2.2.2.2.2.2
    (by decide)

/-- Success of a unit `Except` bind splits into success of both parts. -/
theorem isOk_bind_unit {ε : Type} (x : Except ε Unit) (f : Unit → Except ε Unit) :
    (x >>= f).isOk = (x.isOk && (f ()).isOk) := by
  cases x with
  | ok u => cases u; rfl
  | error e => rfl

/-- A unit `Except` bind produces an error exactly when the first part
does, or the first part succeeds and the continuation errors. -/
theorem bind_unit_eq_error {ε : Type} {x : Except ε Unit}
    {f : Unit → Except ε Unit} {e : ε} :
    (x >>= f) = .error e ↔ x = .error e ∨ (x = .ok () ∧ f () = .error e) := by
  cases x with
  | ok u =>
      cases u
      constructor
      · intro h
        exact Or.inr ⟨rfl, h⟩
      · rintro (h | ⟨h1, h2⟩)
        · exact absurd h (by simp)
        · exact h2
  | error e2 =>
      constructor
      · intro h
        exact Or.inl h
      · rintro (h | ⟨h1, h2⟩)
        · exact h
        · exact absurd h1 (by simp)

/-- A failed non-negativity check on an integer field always names that
field. -/
theorem checkNonnegI_error_shape {name : String} {v : Option ℤ} {e : VError}
    (h : ResourceConstraints.checkNonnegI name v = .error e) :
    e = .negativeField name := by
  cases v with
  | none => simp [ResourceConstraints.checkNonnegI] at h
  | some x =>
      by_cases hx : x < 0 <;>
        simp [ResourceConstraints.checkNonnegI, hx] at h
      exact h.symm

/-- A failed non-negativity check on a float field always names that
field. -/
theorem checkNonnegQ_error_shape {name : String} {v : Option ℚ} {e : VError}
    (h : ResourceConstraints.checkNonnegQ name v = .error e) :
    e = .negativeField name := by
  cases v with
  | none => simp [ResourceConstraints.checkNonnegQ] at h
  | some x =>
      by_cases hx : x < 0 <;>
        simp [ResourceConstraints.checkNonnegQ, hx] at h
      exact h.symm

/-- A failed token-mode check always reports the mode-mixing error. -/
theorem checkTokenModes_error_shape {c : ResourceConstraints} {e : VError}
    (h : ResourceConstraints.checkTokenModes c = .error e) :
    e = .mixedModes ∧
      c.tokens.isSome ∧ (c.reasoning_tokens.isSome ∨ c.text_tokens.isSome) := by
  by_cases hc : c.tokens.isSome ∧ (c.reasoning_tokens.isSome ∨ c.text_tokens.isSome) <;>
    simp [ResourceConstraints.checkTokenModes, hc] at h
  exact ⟨h.symm, hc⟩

/-- A failed effort-value check always reports the invalid-effort
error. -/
theorem checkEffortValue_error_shape {c : ResourceConstraints} {e : VError}
    (h : ResourceConstraints.checkEffortValue c = .error e) :
    e = .invalidEffort := by
  cases hre : c.reasoning_effort with
  | none => simp [ResourceConstraints.checkEffortValue, hre] at h
  | some s =>
      by_cases hs : s = "low" ∨ s = "medium" ∨ s = "high" <;>
        simp [ResourceConstraints.checkEffortValue, hre, hs] at h
      exact h.symm

/-- A failed compatibility check always reports an incompatible-effort
error. -/
theorem validateReasoningCompatibility_error_shape {c : ResourceConstraints}
    {e : VError}
    (h : ResourceConstraints.validateReasoningCompatibility c = .error e) :
    ∃ s, e = .effortIncompatible s := by
  unfold ResourceConstraints.validateReasoningCompatibility at h
  cases hre : c.reasoning_effort with
  | none => rw [hre] at h; simp at h
  | some s =>
      cases hrt : c.reasoning_tokens with
      | none =>
          rw [hre, hrt] at h
          rcases hs : decide (s = "high") with _ | _ <;>
            rcases hm : decide (s = "medium") with _ | _ <;>
            simp_all
      | some b =>
          rw [hre, hrt] at h
          by_cases hs : s = "high"
          · subst hs
            by_cases hb : b < 2000 <;> simp [hb] at h
            exact ⟨"high", h.symm⟩
          · by_cases hm : s = "medium"
            · subst hm
              by_cases hb : b < 500 <;> simp [hs, hb] at h
              exact ⟨"medium", h.symm⟩
            · simp [hs, hm] at h

/-- A failed guarded compatibility check always reports an
incompatible-effort error. -/
theorem checkEffortBudget_error_shape {c : ResourceConstraints} {e : VError}
    (h : ResourceConstraints.checkEffortBudget c = .error e) :
    ∃ s, e = .effortIncompatible s := by
  unfold ResourceConstraints.checkEffortBudget at h
  by_cases hg : ResourceConstraints.truthyStr c.reasoning_effort ∧
      ResourceConstraints.truthyInt c.reasoning_tokens
  · rw [if_pos hg] at h
    exact validateReasoningCompatibility_error_shape h
  · rw [if_neg hg] at h
    simp at h

/-- C3: constructing `ResourceConstraints` with `tokens` set and at the
same time `reasoning_tokens` and/or `text_tokens` set always fails with
an error; with at most one of the two token-budget modes present,
construction never fails with the mode-mixing error. -/
theorem resource_constraints_token_modes_exclusive (c : ResourceConstraints) :
    (c.tokens.isSome → (c.reasoning_tokens.isSome ∨ c.text_tokens.isSome) →
      (ResourceConstraints.validate c).isOk = false) ∧
    (¬(c.tokens.isSome ∧ (c.reasoning_tokens.isSome ∨ c.text_tokens.isSome)) →
      ResourceConstraints.validate c ≠ .error .mixedModes) := by
  constructor
  · intro h1 h2
    have hmix : (ResourceConstraints.checkTokenModes c).isOk = false := by
      simp [ResourceConstraints.checkTokenModes, h1, h2, Except.isOk, Except.toBool]
    simp only [ResourceConstraints.validate, isOk_bind_unit]
    simp [hmix]
  · intro hno h
    rw [ResourceConstraints.validate] at h
    rcases bind_unit_eq_error.mp h with h1 | ⟨-, h⟩
    · exact absurd (checkNonnegI_error_shape h1) (by simp)
    rcases bind_unit_eq_error.mp h with h1 | ⟨-, h⟩
    · exact absurd (checkNonnegI_error_shape h1) (by simp)
    rcases bind_unit_eq_error.mp h with h1 | ⟨-, h⟩
    · exact absurd (checkNonnegI_error_shape h1) (by simp)
    rcases bind_unit_eq_error.mp h with h1 | ⟨-, h⟩
    · exact absurd (checkNonnegI_error_shape h1) (by simp)
    rcases bind_unit_eq_error.mp h with h1 | ⟨-, h⟩
    · exact absurd (checkNonnegI_error_shape h1) (by simp)
    rcases bind_unit_eq_error.mp h with h1 | ⟨-, h⟩
    · exact absurd (checkNonnegI_error_shape h1) (by simp)
    rcases bind_unit_eq_error.mp h with h1 | ⟨-, h⟩
    · exact absurd (checkNonnegQ_error_shape h1) (by simp)
    rcases bind_unit_eq_error.mp h with h1 | ⟨-, h⟩
    · exact absurd (checkNonnegQ_error_shape h1) (by simp)
    rcases bind_unit_eq_error.mp h with h1 | ⟨-, h⟩
    · exact absurd (checkNonnegQ_error_shape h1) (by simp)
    rcases bind_unit_eq_error.mp h with h1 | ⟨-, h⟩
    · exact absurd (checkTokenModes_error_shape h1).2 hno
    rcases bind_unit_eq_error.mp h with h1 | ⟨-, h⟩
    · exact absurd (checkEffortValue_error_shape h1) (by simp)
    · obtain ⟨s, hs⟩ := checkEffortBudget_error_shape h
      simp at hs

/-- Witness for C3: both modes set fails; fine-grained alone is not a
mode-mixing error. -/
theorem resource_constraints_token_modes_exclusive_witness :
    (ResourceConstraints.validate
      { tokens := some 1000, reasoning_tokens := some 500 }).isOk = false ∧
    ResourceConstraints.validate { reasoning_tokens := some 500 } ≠
      .error .mixedModes :=
  ⟨(resource_constraints_token_modes_exclusive
      { tokens := some 1000, reasoning_tokens := some 500 }).1
        (by decide) (by decide),
   (resource_constraints_token_modes_exclusive
      { reasoning_tokens := some 500 }).2 (by decide)⟩

/-- C7 counterexample: `reasoning_effort="high"` with
`reasoning_tokens=0` — a value below 2000 — validates successfully,
because the source guards the compatibility check with Python
truthiness (`if self.reasoning_effort and self.reasoning_tokens:`) and
`0` is falsy. -/
theorem reasoning_effort_zero_budget_counterexample :
    ResourceConstraints.validate
      { reasoning_tokens := some 0, reasoning_effort := some "high" } = .ok () ∧
    (0 : ℤ) < 2000 := by
  constructor
  · rfl
  · decide

/-- C7 (amended): with `reasoning_effort="high"`, every nonzero
`reasoning_tokens` below 2000 fails validation (negative values fail
the non-negativity check, values 1..1999 the compatibility check);
with `"medium"`, every nonzero value below 500 fails; `"low"` never
produces the incompatibility error. `reasoning_tokens=0` is exempt
because the truthiness guard treats it as unset. -/
theorem reasoning_effort_budget_compatibility (c : ResourceConstraints) (n : ℤ) :
    (c.reasoning_effort = some "high" → c.reasoning_tokens = some n →
      n ≠ 0 → n < 2000 → (ResourceConstraints.validate c).isOk = false) ∧
    (c.reasoning_effort = some "medium" → c.reasoning_tokens = some n →
      n ≠ 0 → n < 500 → (ResourceConstraints.validate c).isOk = false) ∧
    (c.reasoning_effort = some "low" →
      ∀ s, ResourceConstraints.validate c ≠ .error (.effortIncompatible s)) := by
  refine ⟨?_, ?_, ?_⟩
  · intro he hrt hne hlt
    rcases lt_trichotomy n 0 with hneg | hzero | hpos
    · have h2 : (ResourceConstraints.checkNonnegI "reasoning_tokens"
          c.reasoning_tokens).isOk = false := by
        simp [ResourceConstraints.checkNonnegI, hrt, hneg, Except.isOk, Except.toBool]
      simp only [ResourceConstraints.validate, isOk_bind_unit]
      simp [h2]
    · exact absurd hzero hne
    · have h2 : (ResourceConstraints.checkEffortBudget c).isOk = false := by
        have hguard : ResourceConstraints.truthyStr c.reasoning_effort ∧
            ResourceConstraints.truthyInt c.reasoning_tokens := by
          simp [ResourceConstraints.truthyStr, ResourceConstraints.truthyInt,
            he, hrt, hne]
        simp [ResourceConstraints.checkEffortBudget, hguard,
          ResourceConstraints.validateReasoningCompatibility, he, hrt, hlt,
          ResourceConstraints.truthyStr, ResourceConstraints.truthyInt, hne,
          Except.isOk, Except.toBool]
      simp only [ResourceConstraints.validate, isOk_bind_unit]
      simp [h2]
  · intro he hrt hne hlt
    rcases lt_trichotomy n 0 with hneg | hzero | hpos
    · have h2 : (ResourceConstraints.checkNonnegI "reasoning_tokens"
          c.reasoning_tokens).isOk = false := by
        simp [ResourceConstraints.checkNonnegI, hrt, hneg, Except.isOk, Except.toBool]
      simp only [ResourceConstraints.validate, isOk_bind_unit]
      simp [h2]
    · exact absurd hzero hne
    · have h2 : (ResourceConstraints.checkEffortBudget c).isOk = false := by
        have hguard : ResourceConstraints.truthyStr c.reasoning_effort ∧
            ResourceConstraints.truthyInt c.reasoning_tokens := by
          simp [ResourceConstraints.truthyStr, ResourceConstraints.truthyInt,
            he, hrt, hne]
        simp [ResourceConstraints.checkEffortBudget, hguard,
          ResourceConstraints.validateReasoningCompatibility, he, hrt, hlt,
          ResourceConstraints.truthyStr, ResourceConstraints.truthyInt, hne,
          Except.isOk, Except.toBool]
      simp only [ResourceConstraints.validate, isOk_bind_unit]
      simp [h2]
  · intro he s h
    rw [ResourceConstraints.validate] at h
    rcases bind_unit_eq_error.mp h with h1 | ⟨-, h⟩
    · exact absurd (checkNonnegI_error_shape h1) (by simp)
    rcases bind_unit_eq_error.mp h with h1 | ⟨-, h⟩
    · exact absurd (checkNonnegI_error_shape h1) (by simp)
    rcases bind_unit_eq_error.mp h with h1 | ⟨-, h⟩
    · exact absurd (checkNonnegI_error_shape h1) (by simp)
    rcases bind_unit_eq_error.mp h with h1 | ⟨-, h⟩
    · exact absurd (checkNonnegI_error_shape h1) (by simp)
    rcases bind_unit_eq_error.mp h with h1 | ⟨-, h⟩
    · exact absurd (checkNonnegI_error_shape h1) (by simp)
    rcases bind_unit_eq_error.mp h with h1 | ⟨-, h⟩
    · exact absurd (checkNonnegI_error_shape h1) (by simp)
    rcases bind_unit_eq_error.mp h with h1 | ⟨-, h⟩
    · exact absurd (checkNonnegQ_error_shape h1) (by simp)
    rcases bind_unit_eq_error.mp h with h1 | ⟨-, h⟩
    · exact absurd (checkNonnegQ_error_shape h1) (by simp)
    rcases bind_unit_eq_error.mp h with h1 | ⟨-, h⟩
    · exact absurd (checkNonnegQ_error_shape h1) (by simp)
    rcases bind_unit_eq_error.mp h with h1 | ⟨-, h⟩
    · exact absurd (checkTokenModes_error_shape h1).1 (by simp)
    rcases bind_unit_eq_error.mp h with h1 | ⟨-, h⟩
    · exact absurd (checkEffortValue_error_shape h1) (by simp)
    · unfold ResourceConstraints.checkEffortBudget at h
      by_cases hg : ResourceConstraints.truthyStr c.reasoning_effort ∧
          ResourceConstraints.truthyInt c.reasoning_tokens
      · rw [if_pos hg] at h
        unfold ResourceConstraints.validateReasoningCompatibility at h
        cases hrt : c.reasoning_tokens with
        | none => rw [he, hrt] at h; simp at h
        | some b => rw [he, hrt] at h; simp at h
      · rw [if_neg hg] at h
        simp at h

/-- Witness for C7: `high` with 100 reasoning tokens fails, `medium`
with 100 fails, `low` with 100 yields no incompatibility error. -/
theorem reasoning_effort_budget_compatibility_witness :
    (ResourceConstraints.validate
      { reasoning_tokens := some 100, reasoning_effort := some "high" }).isOk
        = false ∧
    (ResourceConstraints.validate
      { reasoning_tokens := some 100, reasoning_effort := some "medium" }).isOk
        = false ∧
    ResourceConstraints.validate
      { reasoning_tokens := some 100, reasoning_effort := some "low" } ≠
        .error (.effortIncompatible "low") :=
  ⟨(reasoning_effort_budget_compatibility
      { reasoning_tokens := some 100, reasoning_effort := some "high" } 100).1
        rfl rfl (by decide) (by decide),
   (reasoning_effort_budget_compatibility
      { reasoning_tokens := some 100, reasoning_effort := some "medium" } 100).2.1
        rfl rfl (by decide) (by decide),
   (reasoning_effort_budget_compatibility
      { reasoning_tokens := some 100, reasoning_effort := some "low" } 100).2.2
        rfl "low"⟩

/-- Each accumulation method keeps the reasoning/text split bounded by
the total token count. -/
theorem applyOp_split_le (u : ResourceUsage) (op : UsageOp)
    (h : u.reasoning_tokens + u.text_tokens ≤ u.tokens) :
    (u.applyOp op).reasoning_tokens + (u.applyOp op).text_tokens ≤
      (u.applyOp op).tokens := by
  cases op with
  | addTokens count reasoning text =>
      simp only [ResourceUsage.applyOp, ResourceUsage.add_tokens]
      split_ifs with h1 h2
      · exact h
      · simp only []
        omega
      · simp only []
        omega
  | addApiCall cost tokens =>
      simp only [ResourceUsage.applyOp, ResourceUsage.add_api_call]
      split_ifs with h1
      · exact h
      · obtain ⟨-, htok⟩ := not_or.mp h1
        simp only []
        omega
  | addWebSearch => exact h
  | addToolInvocation => exact h
  | updateMemory m =>
      simp only [ResourceUsage.applyOp, ResourceUsage.update_memory]
      split_ifs <;> exact h
  | addComputeTime s =>
      simp only [ResourceUsage.applyOp, ResourceUsage.add_compute_time]
      split_ifs <;> exact h
  | addCost c =>
      simp only [ResourceUsage.applyOp, ResourceUsage.add_cost]
      split_ifs <;> exact h

/-- Sequencing preserves the split-below-total bound. -/
theorem applyOps_split_le (ops : List UsageOp) (u : ResourceUsage)
    (h : u.reasoning_tokens + u.text_tokens ≤ u.tokens) :
    (u.applyOps ops).reasoning_tokens + (u.applyOps ops).text_tokens ≤
      (u.applyOps ops).tokens := by
  induction ops generalizing u with
  | nil => exact h
  | cons op ops ih => exact ih (u.applyOp op) (applyOp_split_le u op h)

/-- A split-consistent accumulation method preserves the exact equality
between the total and the reasoning/text split. -/
theorem applyOp_split_eq (u : ResourceUsage) (op : UsageOp)
    (hc : UsageOp.splitConsistent op)
    (h : u.tokens = u.reasoning_tokens + u.text_tokens) :
    (u.applyOp op).tokens =
      (u.applyOp op).reasoning_tokens + (u.applyOp op).text_tokens := by
  cases op with
  | addTokens count reasoning text =>
      simp only [UsageOp.splitConsistent] at hc
      simp only [ResourceUsage.applyOp, ResourceUsage.add_tokens]
      split_ifs with h1 h2
      · exact h
      · simp only []
        omega
      · simp only []
        omega
  | addApiCall cost tokens =>
      simp only [UsageOp.splitConsistent] at hc
      simp only [ResourceUsage.applyOp, ResourceUsage.add_api_call]
      split_ifs with h1
      · exact h
      · obtain ⟨-, htok⟩ := not_or.mp h1
        simp only []
        omega
  | addWebSearch => exact h
  | addToolInvocation => exact h
  | updateMemory m =>
      simp only [ResourceUsage.applyOp, ResourceUsage.update_memory]
      split_ifs <;> exact h
  | addComputeTime s =>
      simp only [ResourceUsage.applyOp, ResourceUsage.add_compute_time]
      split_ifs <;> exact h
  | addCost c =>
      simp only [ResourceUsage.applyOp, ResourceUsage.add_cost]
      split_ifs <;> exact h

/-- Sequencing split-consistent methods preserves the exact equality. -/
theorem applyOps_split_eq (ops : List UsageOp) (u : ResourceUsage)
    (hc : ∀ op ∈ ops, UsageOp.splitConsistent op)
    (h : u.tokens = u.reasoning_tokens + u.text_tokens) :
    (u.applyOps ops).tokens =
      (u.applyOps ops).reasoning_tokens + (u.applyOps ops).text_tokens := by
  induction ops generalizing u with
  | nil => exact h
  | cons op ops ih =>
      exact ih (u.applyOp op) (fun o ho => hc o (List.mem_cons_of_mem op ho))
        (applyOp_split_eq u op (hc op (List.mem_cons_self op ops)) h)

/-- Every accumulation method is pointwise non-decreasing on every
counter. -/
theorem applyOp_mono (u : ResourceUsage) (op : UsageOp) :
    ResourceUsage.usageLe u (u.applyOp op) := by
  cases op with
  | addTokens count reasoning text =>
      simp only [ResourceUsage.applyOp, ResourceUsage.add_tokens]
      split_ifs with h1 h2
      · exact ⟨le_refl _, le_refl _, le_refl _, le_refl _, le_refl _, le_refl _,
          le_refl _, le_refl _, le_refl _⟩
      · refine ⟨?_, ?_, ?_, le_refl _, le_refl _, le_refl _, le_refl _, le_refl _,
          le_refl _⟩ <;> simp only [] <;> omega
      · refine ⟨?_, le_refl _, le_refl _, le_refl _, le_refl _, le_refl _,
          le_refl _, le_refl _, le_refl _⟩
        simp only []
        omega
  | addApiCall cost tokens =>
      simp only [ResourceUsage.applyOp, ResourceUsage.add_api_call]
      split_ifs with h1
      · exact ⟨le_refl _, le_refl _, le_refl _, le_refl _, le_refl _, le_refl _,
          le_refl _, le_refl _, le_refl _⟩
      · obtain ⟨hcost, htok⟩ := not_or.mp h1
        refine ⟨?_, le_refl _, le_refl _, ?_, le_refl _, le_refl _, le_refl _,
          le_refl _, ?_⟩
        · simp only []
          omega
        · simp only []
          omega
        · simp only []
          linarith [not_lt.mp hcost]
  | addWebSearch =>
      refine ⟨le_refl _, le_refl _, le_refl _, le_refl _, ?_, le_refl _,
        le_refl _, le_refl _, le_refl _⟩
      simp only [ResourceUsage.applyOp, ResourceUsage.add_web_search]
      omega
  | addToolInvocation =>
      refine ⟨le_refl _, le_refl _, le_refl _, le_refl _, le_refl _, ?_,
        le_refl _, le_refl _, le_refl _⟩
      simp only [ResourceUsage.applyOp, ResourceUsage.add_tool_invocation]
      omega
  | updateMemory m =>
      simp only [ResourceUsage.applyOp, ResourceUsage.update_memory]
      split_ifs with h1
      · exact ⟨le_refl _, le_refl _, le_refl _, le_refl _, le_refl _, le_refl _,
          le_refl _, le_refl _, le_refl _⟩
      · exact ⟨le_refl _, le_refl _, le_refl _, le_refl _, le_refl _, le_refl _,
          le_max_left _ _, le_refl _, le_refl _⟩
  | addComputeTime s =>
      simp only [ResourceUsage.applyOp, ResourceUsage.add_compute_time]
      split_ifs with h1
      · exact ⟨le_refl _, le_refl _, le_refl _, le_refl _, le_refl _, le_refl _,
          le_refl _, le_refl _, le_refl _⟩
      · refine ⟨le_refl _, le_refl _, le_refl _, le_refl _, le_refl _, le_refl _,
          le_refl _, ?_, le_refl _⟩
        simp only []
        linarith [not_lt.mp h1]
  | addCost c =>
      simp only [ResourceUsage.applyOp, ResourceUsage.add_cost]
      split_ifs with h1
      · exact ⟨le_refl _, le_refl _, le_refl _, le_refl _, le_refl _, le_refl _,
          le_refl _, le_refl _, le_refl _⟩
      · refine ⟨le_refl _, le_refl _, le_refl _, le_refl _, le_refl _, le_refl _,
          le_refl _, le_refl _, ?_⟩
        simp only []
        linarith [not_lt.mp h1]

/-- `usageLe` is transitive. -/
theorem usageLe_trans {a b c : ResourceUsage}
    (h1 : ResourceUsage.usageLe a b) (h2 : ResourceUsage.usageLe b c) :
    ResourceUsage.usageLe a c := by
  obtain ⟨x1, x2, x3, x4, x5, x6, x7, x8, x9⟩ := h1
  obtain ⟨y1, y2, y3, y4, y5, y6, y7, y8, y9⟩ := h2
  exact ⟨le_trans x1 y1, le_trans x2 y2, le_trans x3 y3, le_trans x4 y4,
    le_trans x5 y5, le_trans x6 y6, le_trans x7 y7, le_trans x8 y8,
    le_trans x9 y9⟩

/-- Running any further call sequence never decreases a counter. -/
theorem applyOps_mono (u : ResourceUsage) (ops : List UsageOp) :
    ResourceUsage.usageLe u (u.applyOps ops) := by
  induction ops generalizing u with
  | nil =>
      exact ⟨le_refl _, le_refl _, le_refl _, le_refl _, le_refl _, le_refl _,
        le_refl _, le_refl _, le_refl _⟩
  | cons op ops ih => exact usageLe_trans (applyOp_mono u op) (ih (u.applyOp op))

/-- The peak-memory field equals the running maximum of the valid
`update_memory` arguments, folded onto the starting value. -/
theorem applyOps_memory (ops : List UsageOp) (u : ResourceUsage) :
    (u.applyOps ops).memory_mb = (UsageOp.memArgs ops).foldl max u.memory_mb := by
  induction ops generalizing u with
  | nil => rfl
  | cons op ops ih =>
      have hstep : u.applyOps (op :: ops) = (u.applyOp op).applyOps ops := rfl
      rw [hstep, ih (u.applyOp op)]
      cases op with
      | addTokens count reasoning text =>
          have hmem : (u.applyOp (.addTokens count reasoning text)).memory_mb =
              u.memory_mb := by
            simp only [ResourceUsage.applyOp, ResourceUsage.add_tokens]
            split_ifs <;> rfl
          rw [hmem]
          rfl
      | addApiCall cost tokens =>
          have hmem : (u.applyOp (.addApiCall cost tokens)).memory_mb =
              u.memory_mb := by
            simp only [ResourceUsage.applyOp, ResourceUsage.add_api_call]
            split_ifs <;> rfl
          rw [hmem]
          rfl
      | addWebSearch => rfl
      | addToolInvocation => rfl
      | updateMemory m =>
          by_cases hm : m < 0
          · have h1 : (u.applyOp (.updateMemory m)).memory_mb = u.memory_mb := by
              simp [ResourceUsage.applyOp, ResourceUsage.update_memory, hm]
            have h2 : UsageOp.memArgs (UsageOp.updateMemory m :: ops) =
                UsageOp.memArgs ops := by
              simp [UsageOp.memArgs, not_le.mpr hm]
            rw [h1, h2]
          · have h1 : (u.applyOp (.updateMemory m)).memory_mb =
                max u.memory_mb m := by
              simp [ResourceUsage.applyOp, ResourceUsage.update_memory, hm]
            have h2 : UsageOp.memArgs (UsageOp.updateMemory m :: ops) =
                m :: UsageOp.memArgs ops := by
              simp [UsageOp.memArgs, not_lt.mp hm]
            rw [h1, h2, List.foldl_cons]
      | addComputeTime s =>
          have hmem : (u.applyOp (.addComputeTime s)).memory_mb = u.memory_mb := by
            simp only [ResourceUsage.applyOp, ResourceUsage.add_compute_time]
            split_ifs <;> rfl
          rw [hmem]
          rfl
      | addCost c =>
          have hmem : (u.applyOp (.addCost c)).memory_mb = u.memory_mb := by
            simp only [ResourceUsage.applyOp, ResourceUsage.add_cost]
            split_ifs <;> rfl
          rw [hmem]
          rfl

/-- C4 counterexample: mixing a lumpsum `add_tokens(100)` with a later
split call `add_tokens(0, reasoning=50)` leaves `reasoning_tokens`
nonzero while `tokens = 150 ≠ 50 + 0`, refuting the claimed invariant
over all accumulation sequences. -/
theorem usage_split_invariant_counterexample :
    ((ResourceUsage.run [.addTokens 100 0 0, .addTokens 0 50 0]).reasoning_tokens ≠ 0 ∨
      (ResourceUsage.run [.addTokens 100 0 0, .addTokens 0 50 0]).text_tokens ≠ 0) ∧
    ¬((ResourceUsage.run [.addTokens 100 0 0, .addTokens 0 50 0]).tokens =
      (ResourceUsage.run [.addTokens 100 0 0, .addTokens 0 50 0]).reasoning_tokens +
      (ResourceUsage.run [.addTokens 100 0 0, .addTokens 0 50 0]).text_tokens) := by
  decide

/-- C4 (amended): over every sequence of accumulation methods,
`tokens ≥ reasoning_tokens + text_tokens`, with equality whenever every
token-adding call reports a reasoning/text split (each `add_tokens`
call has a positive split component or a non-positive lumpsum count,
and each `add_api_call` adds no tokens); every counter is monotonically
non-decreasing under any further calls; and `memory_mb` equals the
maximum of the values successfully passed to `update_memory` (starting
from the initial 0). -/
theorem usage_accumulation_invariants (ops ops2 : List UsageOp) :
    ((∀ op ∈ ops, UsageOp.splitConsistent op) →
      (ResourceUsage.run ops).tokens =
        (ResourceUsage.run ops).reasoning_tokens +
        (ResourceUsage.run ops).text_tokens) ∧
    (ResourceUsage.run ops).reasoning_tokens +
      (ResourceUsage.run ops).text_tokens ≤ (ResourceUsage.run ops).tokens ∧
    ResourceUsage.usageLe (ResourceUsage.run ops)
      (ResourceUsage.run (ops ++ ops2)) ∧
    (ResourceUsage.run ops).memory_mb = (UsageOp.memArgs ops).foldl max 0 := by
  refine ⟨?_, ?_, ?_, ?_⟩
  · intro hc
    exact applyOps_split_eq ops {} hc rfl
  · exact applyOps_split_le ops {} (by decide)
  · rw [show ResourceUsage.run (ops ++ ops2) =
      (ResourceUsage.run ops).applyOps ops2 by
        simp [ResourceUsage.run, ResourceUsage.applyOps, List.foldl_append]]
    exact applyOps_mono (ResourceUsage.run ops) ops2
  · exact applyOps_memory ops {}

/-- Witness for C4 on a concrete split-consistent sequence. -/
theorem usage_accumulation_invariants_witness :
    ((ResourceUsage.run [.addTokens 0 30 20, .addApiCall (1/2) 0,
        .updateMemory 5, .updateMemory 3]).tokens =
      (ResourceUsage.run [.addTokens 0 30 20, .addApiCall (1/2) 0,
        .updateMemory 5, .updateMemory 3]).reasoning_tokens +
      (ResourceUsage.run [.addTokens 0 30 20, .addApiCall (1/2) 0,
        .updateMemory 5, .updateMemory 3]).text_tokens) ∧
    ResourceUsage.usageLe
      (ResourceUsage.run [.addTokens 0 30 20, .addApiCall (1/2) 0,
        .updateMemory 5, .updateMemory 3])
      (ResourceUsage.run ([.addTokens 0 30 20, .addApiCall (1/2) 0,
        .updateMemory 5, .updateMemory 3] ++ [.addWebSearch])) ∧
    (ResourceUsage.run [.addTokens 0 30 20, .addApiCall (1/2) 0,
        .updateMemory 5, .updateMemory 3]).memory_mb =
      (UsageOp.memArgs [.addTokens 0 30 20, .addApiCall (1/2) 0,
        .updateMemory 5, .updateMemory 3]).foldl max 0 := by
  have h := usage_accumulation_invariants
    [.addTokens 0 30 20, .addApiCall (1/2) 0, .updateMemory 5, .updateMemory 3]
    [.addWebSearch]
  exact ⟨h.1 (by decide), h.2.2.1, h.2.2.2⟩

/-- A violation produced by an integer-limit check carries that check's
resource name, and the check only fires when its limit is present. -/
theorem mem_checkI {name : String} {l : Option ℤ} {a : ℤ} {v : ViolationInfo}
    (h : v ∈ ResourceMonitor.checkI name l a) :
    v.resource = name ∧ l.isSome = true := by
  cases l with
  | none => simp [ResourceMonitor.checkI] at h
  | some x =>
      by_cases hgt : a > x <;> simp [ResourceMonitor.checkI, hgt] at h
      exact ⟨by simp [h], rfl⟩

/-- A violation produced by a float-limit check carries that check's
resource name, and the check only fires when its limit is present. -/
theorem mem_checkQ {name : String} {l : Option ℚ} {a : ℚ} {v : ViolationInfo}
    (h : v ∈ ResourceMonitor.checkQ name l a) :
    v.resource = name ∧ l.isSome = true := by
  cases l with
  | none => simp [ResourceMonitor.checkQ] at h
  | some x =>
      by_cases hgt : a > x <;> simp [ResourceMonitor.checkQ, hgt] at h
      exact ⟨by simp [h], rfl⟩

/-- Every violation reported by the monitor names one of the nine
resources, and only when that resource's limit is configured. -/
theorem mem_check_constraints_named {c : ResourceConstraints}
    {u : ResourceUsage} {v : ViolationInfo}
    (h : v ∈ ResourceMonitor.check_constraints c u) :
    (v.resource = "tokens" ∧ c.tokens.isSome = true) ∨
    (v.resource = "reasoning_tokens" ∧ c.reasoning_tokens.isSome = true) ∨
    (v.resource = "text_tokens" ∧ c.text_tokens.isSome = true) ∨
    (v.resource = "api_calls" ∧ c.api_calls.isSome = true) ∨
    (v.resource = "web_searches" ∧ c.web_searches.isSome = true) ∨
    (v.resource = "tool_invocations" ∧ c.tool_invocations.isSome = true) ∨
    (v.resource = "memory_mb" ∧ c.memory_mb.isSome = true) ∨
    (v.resource = "compute_seconds" ∧ c.compute_seconds.isSome = true) ∨
    (v.resource = "cost_usd" ∧ c.cost_usd.isSome = true) := by
  simp only [ResourceMonitor.check_constraints, List.mem_append] at h
  rcases h with ((((((((h | h) | h) | h) | h) | h) | h) | h) | h)
  · exact Or.inl (mem_checkI h)
  · exact Or.inr (Or.inl (mem_checkI h))
  · exact Or.inr (Or.inr (Or.inl (mem_checkI h)))
  · exact Or.inr (Or.inr (Or.inr (Or.inl (mem_checkI h))))
  · exact Or.inr (Or.inr (Or.inr (Or.inr (Or.inl (mem_checkI h)))))
  · exact Or.inr (Or.inr (Or.inr (Or.inr (Or.inr (Or.inl (mem_checkI h))))))
  · exact Or.inr (Or.inr (Or.inr (Or.inr (Or.inr (Or.inr (Or.inl (mem_checkQ h)))))))
  · exact Or.inr (Or.inr (Or.inr (Or.inr (Or.inr (Or.inr (Or.inr (Or.inl
      (mem_checkQ h))))))))
  · exact Or.inr (Or.inr (Or.inr (Or.inr (Or.inr (Or.inr (Or.inr (Or.inr
      (mem_checkQ h))))))))

/-- Under a validated constraint set with a lumpsum budget, the two
fine-grained limits are absent. -/
theorem validate_lumpsum_no_fine_grained {c : ResourceConstraints}
    (hok : (ResourceConstraints.validate c).isOk = true)
    (ht : c.tokens.isSome = true) :
    c.reasoning_tokens = none ∧ c.text_tokens = none := by
  simp only [ResourceConstraints.validate, isOk_bind_unit, Bool.and_eq_true] at hok
  have hmodes := hok.2.2.2.2.2.2.2.2.2.1
  by_cases hc : c.tokens.isSome ∧ (c.reasoning_tokens.isSome ∨ c.text_tokens.isSome)
  · simp [ResourceConstraints.checkTokenModes, hc, Except.isOk, Except.toBool]
      at hmodes
  · push_neg at hc
    have h2 := hc ht
    exact ⟨Option.not_isSome_iff_eq_none.mp h2.1,
      Option.not_isSome_iff_eq_none.mp h2.2⟩

/-- C6: `ResourceMonitor.check_constraints()` is mode-aware: with a
validated lumpsum budget only the total can be reported among the token
dimensions; each fine-grained check fires only when its own limit is
present; and the two spec scenarios produce exactly the stated single
violations. -/
theorem monitor_check_constraints_mode_aware (c : ResourceConstraints)
    (u : ResourceUsage) :
    (c.tokens.isSome = true → (ResourceConstraints.validate c).isOk = true →
      ∀ v ∈ ResourceMonitor.check_constraints c u,
        v.resource ≠ "reasoning_tokens" ∧ v.resource ≠ "text_tokens") ∧
    (c.reasoning_tokens = none →
      ∀ v ∈ ResourceMonitor.check_constraints c u,
        v.resource ≠ "reasoning_tokens") ∧
    (c.text_tokens = none →
      ∀ v ∈ ResourceMonitor.check_constraints c u, v.resource ≠ "text_tokens") ∧
    (c.tokens = none →
      ∀ v ∈ ResourceMonitor.check_constraints c u, v.resource ≠ "tokens") ∧
    ResourceMonitor.check_constraints { tokens := some 1000 }
      (ResourceUsage.run [.addTokens 1500 0 0]) =
      [{ resource := "tokens", limit := 1000, actual := 1500 }] ∧
    ResourceMonitor.check_constraints
      { reasoning_tokens := some 500, text_tokens := some 200 }
      (ResourceUsage.run [.addTokens 0 600 0]) =
      [{ resource := "reasoning_tokens", limit := 500, actual := 600 }] := by
  refine ⟨?_, ?_, ?_, ?_, by decide, by decide⟩
  · intro ht hok v hv
    obtain ⟨hrt, htt⟩ := validate_lumpsum_no_fine_grained hok ht
    rcases mem_check_constraints_named hv with h | h | h | h | h | h | h | h | h <;>
      simp_all
  · intro hn v hv
    rcases mem_check_constraints_named hv with h | h | h | h | h | h | h | h | h <;>
      simp_all
  · intro hn v hv
    rcases mem_check_constraints_named hv with h | h | h | h | h | h | h | h | h <;>
      simp_all
  · intro hn v hv
    rcases mem_check_constraints_named hv with h | h | h | h | h | h | h | h | h <;>
      simp_all

/-- Witness for C6: the lumpsum scenario's single violation is not a
fine-grained one. -/
theorem monitor_check_constraints_mode_aware_witness :
    ({ resource := "tokens", limit := 1000, actual := 1500 } :
      ViolationInfo).resource ≠ "reasoning_tokens" ∧
    ({ resource := "tokens", limit := 1000, actual := 1500 } :
      ViolationInfo).resource ≠ "text_tokens" :=
  (monitor_check_constraints_mode_aware { tokens := some 1000 }
    (ResourceUsage.run [.addTokens 1500 0 0])).1 (by decide) (by rfl)
    { resource := "tokens", limit := 1000, actual := 1500 } (by decide)

/-- Full evaluation of `ContractEnforcer.check_constraints` on an ACTIVE
contract whose usage violates at least one limit: the violations are
recorded and `constraint_violated` is emitted; in strict mode the
contract then moves to VIOLATED, enforcement stops and
`contract_terminated` is emitted; either way the call returns
`(True, violations)`. -/
theorem check_constraints_eval_active (c : ResourceConstraints)
    (u : ResourceUsage) (s : EnforcerState)
    (h1 : s.contractState = .active)
    (h2 : ResourceMonitor.check_constraints c u ≠ []) :
    ContractEnforcer.check_constraints c u s =
      (if s.strictMode then
        .ok { contractState := .violated, strictMode := s.strictMode,
              enforcementActive := false,
              recordedViolations :=
                s.recordedViolations ++ ResourceMonitor.check_constraints c u,
              events := ((s.events ++
                [⟨"constraint_violated",
                  "Constraint violation: resource(s) exceeded"⟩]) ++
                (if s.enforcementActive then
                  [⟨"contract_stopped", "enforcement stopped"⟩] else [])) ++
                [⟨"contract_terminated", "Contract terminated due to violations"⟩] }
          true (ResourceMonitor.check_constraints c u)
      else
        .ok { s with
              recordedViolations :=
                s.recordedViolations ++ ResourceMonitor.check_constraints c u,
              events := s.events ++
                [⟨"constraint_violated",
                  "Constraint violation: resource(s) exceeded"⟩] }
          true (ResourceMonitor.check_constraints c u)) := by
  have hempty : (ResourceMonitor.check_constraints c u).isEmpty = false := by
    cases hl : ResourceMonitor.check_constraints c u with
    | nil => exact absurd hl h2
    | cons a l => rfl
  by_cases hs : s.strictMode
  · simp only [ContractEnforcer.check_constraints, hempty, Bool.false_eq_true,
      if_false, hs, if_true]
    simp only [ContractEnforcer.handle_violation, ContractEnforcer.emit, h1,
      Contract.violate, ContractEnforcer.stop]
    by_cases hact : s.enforcementActive <;>
      simp [hact, ContractEnforcer.emit, hs]
  · simp only [ContractEnforcer.check_constraints, hempty, Bool.false_eq_true,
      if_false, hs]
    simp [ContractEnforcer.emit]

/-- `ContractEnforcer.check_constraints` in strict mode on a contract
that is not ACTIVE, with usage still over a limit: the strict handler
calls `contract.violate()`, whose guard raises. -/
theorem check_constraints_raises_nonactive (c : ResourceConstraints)
    (u : ResourceUsage) (s : EnforcerState)
    (h1 : s.contractState ≠ .active)
    (hs : s.strictMode = true)
    (h2 : ResourceMonitor.check_constraints c u ≠ []) :
    (ContractEnforcer.check_constraints c u s).isRaised = true := by
  have hempty : (ResourceMonitor.check_constraints c u).isEmpty = false := by
    cases hl : ResourceMonitor.check_constraints c u with
    | nil => exact absurd hl h2
    | cons a l => rfl
  simp only [ContractEnforcer.check_constraints, hempty, Bool.false_eq_true,
    if_false, hs, if_true]
  simp only [ContractEnforcer.handle_violation, ContractEnforcer.emit]
  cases hst : s.contractState with
  | active => exact absurd hst h1
  | drafted => simp [Contract.violate, EnfOutcome.isRaised]
  | fulfilled => simp [Contract.violate, EnfOutcome.isRaised]
  | violated => simp [Contract.violate, EnfOutcome.isRaised]
  | expired => simp [Contract.violate, EnfOutcome.isRaised]
  | terminated => simp [Contract.violate, EnfOutcome.isRaised]

/-- C2: over an ACTIVE contract whose usage exceeds at least one limit,
strict-mode `check_constraints()` returns the violations, moves the
contract to VIOLATED, and `is_active()` is false afterward; the same
call in lenient mode leaves the contract ACTIVE. -/
theorem enforcer_strict_violates_lenient_keeps_active
    (c : ResourceConstraints) (u : ResourceUsage) (s : EnforcerState)
    (h1 : s.contractState = .active)
    (h2 : ResourceMonitor.check_constraints c u ≠ []) :
    (s.strictMode = true →
      (ContractEnforcer.check_constraints c u s).isRaised = false ∧
      (ContractEnforcer.check_constraints c u s).violationsOf =
        ResourceMonitor.check_constraints c u ∧
      (ContractEnforcer.check_constraints c u s).flagOf = true ∧
      ((ContractEnforcer.check_constraints c u s).stateOf).contractState =
        .violated ∧
      ContractEnforcer.is_active
        ((ContractEnforcer.check_constraints c u s).stateOf) = false) ∧
    (s.strictMode = false →
      ((ContractEnforcer.check_constraints c u s).stateOf).contractState =
        .active ∧
      (ContractEnforcer.check_constraints c u s).violationsOf =
        ResourceMonitor.check_constraints c u) := by
  rw [check_constraints_eval_active c u s h1 h2]
  constructor
  · intro hs
    simp [hs, EnfOutcome.isRaised, EnfOutcome.violationsOf, EnfOutcome.flagOf,
      EnfOutcome.stateOf, ContractEnforcer.is_active]
  · intro hs
    simp [hs, EnfOutcome.violationsOf, EnfOutcome.stateOf, h1]

/-- Witness for C2 at a concrete enforcer state over a violated token
limit, in both modes. -/
theorem enforcer_strict_violates_lenient_keeps_active_witness :
    ((ContractEnforcer.check_constraints { tokens := some 100 }
        (ResourceUsage.run [.addTokens 150 0 0])
        { contractState := .active, strictMode := true,
          enforcementActive := true }).stateOf).contractState = .violated ∧
    ((ContractEnforcer.check_constraints { tokens := some 100 }
        (ResourceUsage.run [.addTokens 150 0 0])
        { contractState := .active, strictMode := false,
          enforcementActive := true }).stateOf).contractState = .active :=
  ⟨((enforcer_strict_violates_lenient_keeps_active { tokens := some 100 }
      (ResourceUsage.run [.addTokens 150 0 0])
      { contractState := .active, strictMode := true,
        enforcementActive := true } rfl (by decide)).1 rfl).2.2.2.1,
   ((enforcer_strict_violates_lenient_keeps_active { tokens := some 100 }
      (ResourceUsage.run [.addTokens 150 0 0])
      { contractState := .active, strictMode := false,
        enforcementActive := true } rfl (by decide)).2 rfl).1⟩

/-- C5 counterexample: a strict-mode `check_constraints()` call that
detects a violation does not raise — it returns normally. The typed
`ContractViolationError` of `wrapper.py` is never raised by the
enforcer. -/
theorem strict_violation_not_raised_counterexample :
    ResourceMonitor.check_constraints { tokens := some 100 }
      (ResourceUsage.run [.addTokens 150 0 0]) ≠ [] ∧
    (ContractEnforcer.check_constraints { tokens := some 100 }
      (ResourceUsage.run [.addTokens 150 0 0])
      { contractState := .active, strictMode := true,
        enforcementActive := true }).isRaised = false := by
  decide

/-- C5 (amended): in strict mode a detected violation is recorded first
and the `constraint_violated` event emitted before the contract is
transitioned to VIOLATED, enforcement stopped and `contract_terminated`
emitted, after which the call returns `(True, violations)` to the
caller — no typed violation error is raised; in lenient mode the same
violation is only recorded and reported via the event, the state stays
ACTIVE, and nothing is raised. -/
theorem strict_violation_recorded_then_returned
    (c : ResourceConstraints) (u : ResourceUsage) (s : EnforcerState)
    (h1 : s.contractState = .active)
    (h2 : ResourceMonitor.check_constraints c u ≠ []) :
    (s.strictMode = true →
      (ContractEnforcer.check_constraints c u s).isRaised = false ∧
      ((ContractEnforcer.check_constraints c u s).stateOf).recordedViolations =
        s.recordedViolations ++ ResourceMonitor.check_constraints c u ∧
      ((ContractEnforcer.check_constraints c u s).stateOf).events.map
          EnforcementEvent.event_type =
        ((s.events.map EnforcementEvent.event_type ++ ["constraint_violated"]) ++
          (if s.enforcementActive then ["contract_stopped"] else [])) ++
          ["contract_terminated"] ∧
      ((ContractEnforcer.check_constraints c u s).stateOf).contractState =
        .violated ∧
      (ContractEnforcer.check_constraints c u s).flagOf = true ∧
      (ContractEnforcer.check_constraints c u s).violationsOf =
        ResourceMonitor.check_constraints c u) ∧
    (s.strictMode = false →
      (ContractEnforcer.check_constraints c u s).isRaised = false ∧
      ((ContractEnforcer.check_constraints c u s).stateOf).recordedViolations =
        s.recordedViolations ++ ResourceMonitor.check_constraints c u ∧
      ((ContractEnforcer.check_constraints c u s).stateOf).events.map
          EnforcementEvent.event_type =
        s.events.map EnforcementEvent.event_type ++ ["constraint_violated"] ∧
      ((ContractEnforcer.check_constraints c u s).stateOf).contractState =
        .active) := by
  rw [check_constraints_eval_active c u s h1 h2]
  constructor
  · intro hs
    by_cases hact : s.enforcementActive <;>
      simp [hs, hact, EnfOutcome.isRaised, EnfOutcome.violationsOf,
        EnfOutcome.flagOf, EnfOutcome.stateOf]
  · intro hs
    simp [hs, EnfOutcome.isRaised, EnfOutcome.violationsOf, EnfOutcome.stateOf,
      h1]

/-- Witness for C5's amended statement at a concrete strict enforcer. -/
theorem strict_violation_recorded_then_returned_witness :
    (ContractEnforcer.check_constraints { tokens := some 100 }
      (ResourceUsage.run [.addTokens 150 0 0])
      { contractState := .active, strictMode := true,
        enforcementActive := true }).isRaised = false ∧
    ((ContractEnforcer.check_constraints { tokens := some 100 }
      (ResourceUsage.run [.addTokens 150 0 0])
      { contractState := .active, strictMode := true,
        enforcementActive := true }).stateOf).events.map
        EnforcementEvent.event_type =
      ["constraint_violated", "contract_stopped", "contract_terminated"] := by
  have h := (strict_violation_recorded_then_returned { tokens := some 100 }
    (ResourceUsage.run [.addTokens 150 0 0])
    { contractState := .active, strictMode := true, enforcementActive := true }
    rfl (by decide)).1 rfl
  exact ⟨h.1, h.2.2.1⟩

/-- C10: with a strict enforcer over an ACTIVE contract and usage over a
limit, the first `check_constraints()` returns normally (transitioning
the contract to VIOLATED); calling it again with usage still over the
limit raises (the strict handler calls `contract.violate()`, illegal
outside ACTIVE) instead of returning the violation list. -/
theorem strict_recheck_after_violation_raises
    (c : ResourceConstraints) (u : ResourceUsage) (s : EnforcerState)
    (h1 : s.contractState = .active)
    (hs : s.strictMode = true)
    (h2 : ResourceMonitor.check_constraints c u ≠ []) :
    (ContractEnforcer.check_constraints c u s).isRaised = false ∧
    ((ContractEnforcer.check_constraints c u s).stateOf).contractState =
      .violated ∧
    (ContractEnforcer.check_constraints c u
      ((ContractEnforcer.check_constraints c u s).stateOf)).isRaised = true := by
  have heval := check_constraints_eval_active c u s h1 h2
  rw [heval, hs]
  simp only [if_true]
  refine ⟨rfl, rfl, ?_⟩
  exact check_constraints_raises_nonactive c u _ (by simp [EnfOutcome.stateOf])
    (by simp [EnfOutcome.stateOf, hs]) h2

/-- Witness for C10 at a concrete strict enforcer. -/
theorem strict_recheck_after_violation_raises_witness :
    (ContractEnforcer.check_constraints { tokens := some 100 }
      (ResourceUsage.run [.addTokens 150 0 0])
      ((ContractEnforcer.check_constraints { tokens := some 100 }
        (ResourceUsage.run [.addTokens 150 0 0])
        { contractState := .active, strictMode := true,
          enforcementActive := true }).stateOf)).isRaised = true :=
  (strict_recheck_after_violation_raises { tokens := some 100 }
    (ResourceUsage.run [.addTokens 150 0 0])
    { contractState := .active, strictMode := true, enforcementActive := true }
    rfl rfl (by decide)).2.2

/-- C9: an exception raised by the wrapped operation inside
`ContractAgent.execute` is never propagated: the call returns a failed
result with null output whose violations list is exactly the exception
text, and the contract state becomes VIOLATED. (The hypothesis on the
starting state says only that the pre-try `enforcer.start()` does not
itself fail: enforcement is already active or the contract is still
DRAFTED.) -/
theorem execute_catches_operation_exceptions {Input Output : Type}
    (c : ResourceConstraints) (op : Input → Except String (Option Output))
    (s : EnforcerState) (u : ResourceUsage) (input : Input) (msg : String)
    (hop : op input = .error msg)
    (hstart : s.enforcementActive = true ∨ s.contractState = .drafted) :
    ∃ s2 : EnforcerState,
      ContractAgent.execute c op s u input =
        .ok (s2, { output := none, success := false, violations := [msg] }) ∧
      s2.contractState = .violated := by
  by_cases hact : s.enforcementActive
  · refine ⟨{ contractState := .violated
              strictMode := s.strictMode
              enforcementActive := s.enforcementActive
              recordedViolations := s.recordedViolations
              events := [⟨"error", msg⟩] }, ?_, rfl⟩
    simp only [ContractAgent.execute, hact, if_true, hop, List.nil_append]
  · have hdr : s.contractState = .drafted := by
      rcases hstart with h | h
      · exact absurd h (by simp [hact])
      · exact h
    refine ⟨{ contractState := .violated
              strictMode := s.strictMode
              enforcementActive := true
              recordedViolations := s.recordedViolations
              events := [⟨"contract_started", "enforcement started"⟩,
                ⟨"error", msg⟩] }, ?_, rfl⟩
    simp only [ContractAgent.execute, hact, Bool.false_eq_true, if_false,
      ContractEnforcer.start, hdr, Contract.activate, ContractEnforcer.emit,
      hop, List.nil_append, List.singleton_append]

/-- Witness for C9: a concrete raising operation on a drafted
contract. -/
theorem execute_catches_operation_exceptions_witness :
    ∃ s2 : EnforcerState,
      @ContractAgent.execute Unit Unit {}
        (fun _ : Unit => .error "operation failed")
        { contractState := .drafted, strictMode := true } {} () =
        .ok (s2, { output := none, success := false,
                   violations := ["operation failed"] }) ∧
      s2.contractState = .violated :=
  execute_catches_operation_exceptions {} (fun _ => .error "operation failed")
    { contractState := .drafted, strictMode := true } {} () "operation failed"
    rfl (Or.inr rfl)

/-- On a non-negative rational, Python truncation agrees with the
floor. -/
theorem pyInt_eq_floor (q : ℚ) (h : 0 ≤ q) : pyInt q = ⌊q⌋ := by
  rw [Rat.floor_def]
  exact Int.tdiv_eq_ediv (Rat.num_nonneg.mpr h) (Int.natCast_nonneg _)

/-- Python `int(n * 0.7)` on a count is exact floor division by 10 of
`7n` (over exact rationals). -/
theorem pyInt_mul_seven_tenths (n : ℕ) :
    pyInt ((n : ℚ) * (7/10)) = (((n * 7) / 10 : ℕ) : ℤ) := by
  have h1 : ((n : ℚ) * (7/10)) = ((n * 7 : ℕ) : ℚ) / ((10 : ℕ) : ℚ) := by
    push_cast
    ring
  rw [h1, pyInt_eq_floor _ (by positivity), Rat.floor_natCast_div_natCast]
  rfl

/-- Python `int(n * 0.6)` on a count is exact floor division by 10 of
`6n` (over exact rationals). -/
theorem pyInt_mul_six_tenths (n : ℕ) :
    pyInt ((n : ℚ) * (6/10)) = (((n * 6) / 10 : ℕ) : ℤ) := by
  have h1 : ((n : ℚ) * (6/10)) = ((n * 6 : ℕ) : ℚ) / ((10 : ℕ) : ℚ) := by
    push_cast
    ring
  rw [h1, pyInt_eq_floor _ (by positivity), Rat.floor_natCast_div_natCast]
  rfl

/-- Positional specification of the ECONOMICAL allocation loop: the
`i`-th allocation belongs to the `i`-th processed task; its time is
scaled ×1.3 and its quality ×0.95; a required task gets exactly
⌊0.7·estimate⌋ regardless of budget; an optional task gets
⌊0.6·estimate⌋ capped by the usable budget minus what was already
allocated, and zero once that budget is exhausted. -/
theorem econGo_getElem (usable : ℤ) (ts : List Task) (sofar : ℤ) (i : ℕ)
    (t : Task) (ht : ts[i]? = some t) :
    ∃ a, (Planner.econGo usable ts sofar)[i]? = some a ∧
      a.task_id = t.id ∧
      a.allocated_time = t.estimated_time * (13/10) ∧
      a.expected_quality = t.estimated_quality * (95/100) ∧
      (t.required = true →
        a.allocated_tokens = (((t.estimated_tokens * 7) / 10 : ℕ) : ℤ)) ∧
      (t.required = false →
        a.allocated_tokens =
          if sofar + (((Planner.econGo usable ts sofar).take i).map
              ResourceAllocation.allocated_tokens).sum < usable then
            min (((t.estimated_tokens * 6) / 10 : ℕ) : ℤ)
              (usable - (sofar + (((Planner.econGo usable ts sofar).take i).map
                ResourceAllocation.allocated_tokens).sum))
          else 0) := by
  induction ts generalizing sofar i with
  | nil => simp at ht
  | cons t0 ts ih =>
      cases i with
      | zero =>
          have ht0 : t0 = t := by simpa using ht
          subst ht0
          refine ⟨{ task_id := t0.id
                    allocated_tokens := Planner.econAllocated usable t0 sofar
                    allocated_time := t0.estimated_time * (13/10)
                    expected_quality := t0.estimated_quality * (95/100) },
            by simp [Planner.econGo], rfl, rfl, rfl, ?_, ?_⟩
          · intro hreq
            simp only [Planner.econAllocated, hreq, if_true]
            exact pyInt_mul_seven_tenths t0.estimated_tokens
          · intro hreq
            simp only [Planner.econAllocated, hreq, Bool.false_eq_true,
              if_false, List.take_zero, List.map_nil, List.sum_nil, add_zero]
            rw [pyInt_mul_six_tenths]
      | succ i =>
          have ht' : ts[i]? = some t := by simpa using ht
          obtain ⟨a, ha1, ha2, ha3, ha4, ha5, ha6⟩ :=
            ih (sofar + Planner.econAllocated usable t0 sofar) i ht'
          refine ⟨a, by simpa [Planner.econGo] using ha1, ha2, ha3, ha4, ha5, ?_⟩
          intro hreq
          have h6 := ha6 hreq
          have hsum : sofar +
              (((Planner.econGo usable (t0 :: ts) sofar).take (i + 1)).map
                ResourceAllocation.allocated_tokens).sum =
              (sofar + Planner.econAllocated usable t0 sofar) +
              (((Planner.econGo usable ts
                  (sofar + Planner.econAllocated usable t0 sofar)).take i).map
                ResourceAllocation.allocated_tokens).sum := by
            simp only [Planner.econGo, List.take_succ_cons, List.map_cons,
              List.sum_cons]
            ring
          rw [hsum]
          exact h6

/-- C8: in ECONOMICAL mode with a tokens budget, every required task is
allocated exactly ⌊0.7·estimate⌋ regardless of remaining budget, every
optional task ⌊0.6·estimate⌋ capped by the remaining 80%-usable budget
(zero once it is exhausted), every allocation carries
`allocated_time = 1.3·estimated_time` and
`expected_quality = 0.95·estimated_quality`; and a required task
estimated at 4000 tokens is allocated exactly 2800. -/
theorem plan_allocation_economical (tasks : List Task) (contract : Contract)
    (usage_tokens : ℤ) (B : ℤ)
    (hmode : contract.mode = .economical)
    (htok : contract.resources.tokens = some B) :
    (∀ i t, (Planner.sortTasks tasks)[i]? = some t →
      ∃ a, (Planner.plan_resource_allocation tasks contract usage_tokens)[i]? =
          some a ∧
        a.task_id = t.id ∧
        a.allocated_time = t.estimated_time * (13/10) ∧
        a.expected_quality = t.estimated_quality * (95/100) ∧
        (t.required = true →
          a.allocated_tokens = (((t.estimated_tokens * 7) / 10 : ℕ) : ℤ)) ∧
        (t.required = false →
          a.allocated_tokens =
            if (((Planner.plan_resource_allocation tasks contract
                usage_tokens).take i).map
                ResourceAllocation.allocated_tokens).sum <
                pyInt (((B - usage_tokens : ℤ) : ℚ) * (8/10)) then
              min (((t.estimated_tokens * 6) / 10 : ℕ) : ℤ)
                (pyInt (((B - usage_tokens : ℤ) : ℚ) * (8/10)) -
                  (((Planner.plan_resource_allocation tasks contract
                    usage_tokens).take i).map
                    ResourceAllocation.allocated_tokens).sum)
            else 0)) ∧
    Planner.plan_resource_allocation
      [{ id := "t1", estimated_tokens := 4000, required := true }]
      { resources := { tokens := some 10000 }, mode := .economical } 0 =
      [{ task_id := "t1", allocated_tokens := 2800, allocated_time := 0,
         expected_quality := (8/10) * (95/100) }] := by
  have hplan : Planner.plan_resource_allocation tasks contract usage_tokens =
      Planner.econGo (pyInt (((B - usage_tokens : ℤ) : ℚ) * (8/10)))
        (Planner.sortTasks tasks) 0 := by
    simp [Planner.plan_resource_allocation, htok, hmode,
      Planner.allocate_economical]
  constructor
  · intro i t ht
    obtain ⟨a, ha1, ha2, ha3, ha4, ha5, ha6⟩ :=
      econGo_getElem (pyInt (((B - usage_tokens : ℤ) : ℚ) * (8/10)))
        (Planner.sortTasks tasks) 0 i t ht
    rw [hplan]
    refine ⟨a, ha1, ha2, ha3, ha4, ha5, ?_⟩
    intro hreq
    have h6 := ha6 hreq
    simpa using h6
  · have harg : ((4000 : ℚ) * (7 / 10)) = 2800 := by norm_num
    have h7 := pyInt_mul_seven_tenths 4000
    norm_num [harg] at h7
    simp [Planner.plan_resource_allocation, Planner.allocate_economical,
      Planner.sortTasks, stableSortBy, insertStable, Planner.econGo,
      Planner.econAllocated, harg, h7]

/-- Witness for C8: the required 4000-token task at position 0 of the
scenario. -/
theorem plan_allocation_economical_witness :
    ∃ a, (Planner.plan_resource_allocation
        [{ id := "t1", estimated_tokens := 4000, required := true }]
        { resources := { tokens := some 10000 }, mode := .economical } 0)[0]? =
        some a ∧
      a.task_id = "t1" ∧
      a.allocated_tokens = (((4000 * 7) / 10 : ℕ) : ℤ) := by
  have h := (plan_allocation_economical
    [{ id := "t1", estimated_tokens := 4000, required := true }]
    { resources := { tokens := some 10000 }, mode := .economical } 0 10000
    rfl rfl).1 0 { id := "t1", estimated_tokens := 4000, required := true }
    (by rfl)
  obtain ⟨a, ha1, ha2, ha3, ha4, ha5, ha6⟩ := h
  exact ⟨a, ha1, ha2, ha5 rfl⟩

end AgentContracts
